import Mathlib

/-!
Verification of the audio-merger bot core against its specification.

The TypeScript sources are shallowly embedded: JS strings become `List Char`
(so that every operation is structural and kernel-computable), the session
`Map` becomes a function `Nat → Option UserSession`, `Date.now()` becomes an
explicit `now : Nat` argument, and external effects (downloads, ffmpeg,
uploads) become boolean outcome oracles threaded through the orchestration
functions.
-/

/-- JS strings are modelled as lists of characters. -/
abbrev Str := List Char

/-- JS `s.includes(pat)`: `pat` occurs as a contiguous substring of `s`. -/
def strIncludes (pat : Str) : Str → Bool
  | [] => pat.isEmpty
  | x :: xs => pat.isPrefixOf (x :: xs) || strIncludes pat xs

/-- Split a character list at every occurrence of `c`
(the behaviour of JS `String.prototype.split` with a one-character separator). -/
def splitOnChar (c : Char) : Str → List Str
  | [] => [[]]
  | x :: xs =>
    let r := splitOnChar c xs
    if x = c then [] :: r
    else
      match r with
      | [] => [[x]]
      | h :: t => (x :: h) :: t

/-- Fuel-driven worker for `splitOnStr`. -/
def splitOnStrGo (pat : Str) : Nat → Str → Str → List Str
  | 0, s, cur => [cur.reverse ++ s]
  | fuel + 1, s, cur =>
    match s with
    | [] => [cur.reverse]
    | x :: xs =>
      if !pat.isEmpty && pat.isPrefixOf (x :: xs) then
        cur.reverse :: splitOnStrGo pat fuel ((x :: xs).drop pat.length) []
      else
        splitOnStrGo pat fuel xs (x :: cur)

/-- JS `String.prototype.split` with a multi-character separator. -/
def splitOnStr (pat s : Str) : List Str :=
  splitOnStrGo pat (s.length + 1) s []

/-- Index of the first occurrence of character `c` (JS `indexOf`), if any. -/
def idxOfChar (c : Char) : Str → Option Nat
  | [] => none
  | x :: xs => if x = c then some 0 else (idxOfChar c xs).map (· + 1)

/-! ## Node `path` model

`path.join(a, b)` and `path.normalize` resolve `.` and `..` segments; on an
absolute path, surplus `..` segments at the root are dropped. -/

/-- One step of path normalization over a reversed segment stack. -/
def pushSeg (abs : Bool) (stk : List Str) (seg : Str) : List Str :=
  if seg = ".".data then stk
  else if seg = "..".data then
    match stk with
    | [] => if abs then [] else [seg]
    | top :: rest => if top = "..".data then seg :: top :: rest else rest
  else seg :: stk

/-- Interleave `/` between path segments. -/
def joinSegs : List Str → Str
  | [] => []
  | [s] => s
  | s :: rest => s ++ '/' :: joinSegs rest

/-- Node `path.normalize` (sufficient fragment: `.`/`..` resolution,
duplicate-slash removal, absolute vs relative handling). -/
def normalizePath (s : Str) : Str :=
  let abs := s.head? = some '/'
  let segs := (splitOnChar '/' s).filter (fun seg => ¬ seg.isEmpty)
  let stk := segs.foldl (pushSeg abs) []
  let body := joinSegs stk.reverse
  if abs then '/' :: body
  else if body.isEmpty then ".".data else body

/-- Node `path.join(a, b)`: concatenate with a `/` and normalize. -/
def pathJoin (a b : Str) : Str := normalizePath (a ++ '/' :: b)

/-! ## FileDownloadService -/

/-- The shared storage root hard-coded in `FileDownloadService.handleLocalFile`. -/
def storageRoot : Str := "/var/lib/telegram-bot-api".data

/-- Embeds `FileDownloadService.isLocalPath`: substring checks against the local API
endpoints, plus "anything that does not start with http is local". -/
def isLocalPath (url : Str) : Bool :=
  strIncludes "127.0.0.1:8081".data url ||
  strIncludes "localhost:8081".data url ||
  strIncludes "telegram-bot-api:8081".data url ||
  !("http".data.isPrefixOf url)

/-- Destination of `FileDownloadService.downloadFile`. -/
inductive Route
  | local
  | remote
deriving DecidableEq

/-- The classification in `FileDownloadService.downloadFile`: local when the
reference starts with `file://` or `isLocalPath` holds, otherwise remote. -/
def downloadFileRoute (url : Str) : Route :=
  if "file://".data.isPrefixOf url || isLocalPath url then .local else .remote

/-- The filesystem path that `FileDownloadService.handleLocalFile` computes and
then reads (`fsp.access` followed by `fsp.copyFile`).  `none` models the
`Invalid local API URL format` throw.  The function performs prefix stripping
and `path.join`/`path.normalize` only; it contains no containment check
against `storageRoot`. -/
def handleLocalFilePath (url : Str) : Option Str :=
  if "file://".data.isPrefixOf url then
    some (normalizePath (url.drop "file://".data.length))
  else if "http".data.isPrefixOf url then
    match (splitOnStr "/file/".data url).drop 1 with
    | [] => none
    | filePathPart :: _ =>
      let pathAfterToken :=
        match idxOfChar '/' filePathPart with
        | some i => filePathPart.drop (i + 1)
        | none => filePathPart
      some (normalizePath (pathJoin storageRoot pathAfterToken))
  else
    let c1 := if "telegram-bot-api/".data.isPrefixOf url then
        url.drop "telegram-bot-api/".data.length else url
    let c2 := if "/telegram-bot-api/".data.isPrefixOf c1 then
        c1.drop "/telegram-bot-api/".data.length else c1
    some (normalizePath (pathJoin storageRoot c2))

/-- Containment: the resolved path lies inside the configured storage root. -/
def insideRoot (p : Str) : Bool :=
  p = storageRoot || (storageRoot ++ ['/']).isPrefixOf p

/-! ### Specification-side classification rule (for comparison, claim C6)

The next four definitions follow the specification's words, not the code:
"a reference is local if it is an absolute filesystem path, or a URL whose
host matches the configured local-storage endpoint, or any string that is not
itself a well-formed http(s) URL; otherwise it is remote." -/

/-- The configured local-storage endpoints (host:port) of this deployment. -/
def specLocalEndpoints : List Str :=
  ["127.0.0.1:8081".data, "localhost:8081".data, "telegram-bot-api:8081".data]

/-- Host (with port) of an http(s) URL: the part between the scheme and the
first `/`. -/
def specHostOf (s : Str) : Str :=
  let rest :=
    if "http://".data.isPrefixOf s then s.drop "http://".data.length
    else if "https://".data.isPrefixOf s then s.drop "https://".data.length
    else []
  rest.takeWhile (fun c => c ≠ '/')

/-- A well-formed http(s) URL: an `http://` or `https://` scheme followed by
a nonempty host. -/
def specIsHttpUrl (s : Str) : Bool :=
  ("http://".data.isPrefixOf s || "https://".data.isPrefixOf s) &&
  !(specHostOf s).isEmpty

/-- The specification's classification rule, verbatim. -/
def specIsLocalRef (s : Str) : Bool :=
  (s.head? == some '/') ||
  (specIsHttpUrl s && specLocalEndpoints.contains (specHostOf s)) ||
  !specIsHttpUrl s

/-! ## SessionManager data model (`src/types.ts`, `SessionManager.ts`) -/

/-- Tag of a `MixedQueueItem` (`"youtube" | "audio_file"`). -/
inductive ItemKind
  | youtube
  | audioFile
deriving DecidableEq

/-- Embeds `MixedQueueItem` from `src/types.ts`. -/
structure MixedQueueItem where
  type : ItemKind
  content : Str
  fileName : Option Str
  timestamp : Nat
deriving DecidableEq

/-- Embeds `AudioQueueItem` from `src/types.ts`. -/
structure AudioQueueItem where
  fileId : Str
  fileName : Str
  userId : Nat
  timestamp : Nat
deriving DecidableEq

/-- Embeds `UserSession` from `src/types.ts`. -/
structure UserSession where
  audioFiles : List AudioQueueItem
  mixedQueue : List MixedQueueItem
  createdAt : Nat
  lastActivity : Nat
deriving DecidableEq

/-- The `SessionManager.sessions` map. -/
def Store := Nat → Option UserSession

/-- The empty map an unloaded `SessionManager` starts with. -/
def emptyStore : Store := fun _ => none

/-- JS `Map.set` on the sessions map. -/
def setStore (st : Store) (u : Nat) (s : UserSession) : Store :=
  fun v => if v = u then some s else st v

/-- Embeds `SessionManager.getSession`. -/
def getSession (st : Store) (u : Nat) : Option UserSession := st u

/-- The fresh session value built by `SessionManager.createSession`. -/
def freshSession (now : Nat) : UserSession :=
  { audioFiles := [], mixedQueue := [], createdAt := now, lastActivity := now }

/-- Embeds `SessionManager.createSession`: inserts a fresh session and returns it. -/
def createSession (st : Store) (u : Nat) (now : Nat) : UserSession × Store :=
  (freshSession now, setStore st u (freshSession now))

/-- Embeds `SessionManager.updateSession`: stamps `lastActivity` and stores. -/
def updateSession (st : Store) (u : Nat) (s : UserSession) (now : Nat) : Store :=
  setStore st u { s with lastActivity := now }

/-- Embeds `SessionManager.deleteSession`. -/
def deleteSession (st : Store) (u : Nat) : Store :=
  fun v => if v = u then none else st v

/-- Embeds `SessionManager.addAudioFile`: create-if-absent, reject at 20 queued
files, otherwise stamp the item and append it. -/
def addAudioFile (st : Store) (u : Nat) (it : AudioQueueItem) (now : Nat) :
    Bool × Store :=
  let acc : UserSession × Store :=
    match getSession st u with
    | some s => (s, st)
    | none => createSession st u now
  let s := acc.1
  let st1 := acc.2
  if 20 ≤ s.audioFiles.length then (false, st1)
  else
    (true, updateSession st1 u
      { s with audioFiles := s.audioFiles ++ [{ it with timestamp := now }] } now)

/-- Embeds `SessionManager.addMixedItem`: create-if-absent, reject at 20 queued
items, otherwise stamp the item and append it. -/
def addMixedItem (st : Store) (u : Nat) (it : MixedQueueItem) (now : Nat) :
    Bool × Store :=
  let acc : UserSession × Store :=
    match getSession st u with
    | some s => (s, st)
    | none => createSession st u now
  let s := acc.1
  let st1 := acc.2
  if 20 ≤ s.mixedQueue.length then (false, st1)
  else
    (true, updateSession st1 u
      { s with mixedQueue := s.mixedQueue ++ [{ it with timestamp := now }] } now)

/-- Embeds `SessionManager.getMixedQueueStatus`.  The method only reads the map;
`?.length || 0` and `|| []` collapse the absent-session case to `(0, [])`. -/
def getMixedQueueStatus (st : Store) (u : Nat) : Nat × List MixedQueueItem :=
  match getSession st u with
  | none => (0, [])
  | some s => (s.mixedQueue.length, s.mixedQueue)

/-- Embeds `SessionManager.getQueueStatus` (audio-file variant). -/
def getQueueStatus (st : Store) (u : Nat) : Nat × List AudioQueueItem :=
  match getSession st u with
  | none => (0, [])
  | some s => (s.audioFiles.length, s.audioFiles)

/-- Embeds `SessionManager.clearMixedQueue`: empties the mixed queue when the session
exists, leaving absent sessions alone. -/
def clearMixedQueue (st : Store) (u : Nat) (now : Nat) : Store :=
  match getSession st u with
  | none => st
  | some s => updateSession st u { s with mixedQueue := [] } now

/-- Mixed queue of a user as stored (empty when the session is absent). -/
def mixedQueueOf (st : Store) (u : Nat) : List MixedQueueItem :=
  match st u with
  | none => []
  | some s => s.mixedQueue

/-- Audio-file queue of a user as stored (empty when the session is absent). -/
def audioQueueOf (st : Store) (u : Nat) : List AudioQueueItem :=
  match st u with
  | none => []
  | some s => s.audioFiles

/-! ## Durable snapshot (`SessionManager.saveSessions` / `loadSessions`) -/

/-- Filesystem operations a snapshot write can perform. -/
inductive FsOp
  | write (path content : Str)
  | rename (src dst : Str)
deriving DecidableEq

/-- The operations `SessionManager.saveSessions` performs: one direct
`fs.writeFileSync(this.sessionsFile, JSON.stringify(obj))` — no temporary
file and no rename. -/
def saveSessionsOps (sessionsFile content : Str) : List FsOp :=
  [.write sessionsFile content]

/-- The snapshot file as seen by `SessionManager.loadSessions`: `none` when
`fs.existsSync` is false, `some none` when the content fails to parse
(`JSON.parse` throws, caught), `some (some m)` when it parses to a map. -/
def SnapshotFile := Option (Option Store)

/-- Embeds `SessionManager.loadSessions`: a missing file leaves the initial empty
map, a parse failure is caught and resets to an empty map, and a parsed
snapshot becomes the session map. -/
def loadSessions (file : SnapshotFile) : Store :=
  match file with
  | none => emptyStore
  | some none => emptyStore
  | some (some m) => m

/-- Write-temp-then-rename semantics: some temporary path (distinct from the
final file) receives the content, then is renamed onto the final file. -/
def atomicReplace (final : Str) (ops : List FsOp) : Prop :=
  ∃ tmp c, tmp ≠ final ∧ ops = [.write tmp c, .rename tmp final]

/-! ## AudioMergeService.analyzeInputFiles

A probe (`ffmpeg.ffprobe`) of one input either errors (`none`), finds no
audio stream (`some none`), or yields the audio stream's metadata.  Numeric
fields are `Option`s and a zero value is falsy in the JS guards
(`if (audioStream.bit_rate)` …).  Bit rates are in bits per second and are
divided by 1000, so they are modelled as rationals. -/

/-- The audio stream fields `analyzeInputFiles` reads from `ffprobe` output. -/
structure AudioStream where
  codecName : Option Str
  bitRate : Option ℚ
  sampleRate : Option Nat
  channels : Option Nat
deriving DecidableEq

/-- Outcome of probing one input file. -/
abbrev ProbeResult := Option (Option AudioStream)

/-- Mutable locals of the `analyzeInputFiles` loop. -/
structure AnalyzeState where
  maxBitrate : ℚ
  maxSampleRate : Nat
  channels : Nat
  hasLossless : Bool
deriving DecidableEq

/-- Initial values: `maxBitrate = 128`, `maxSampleRate = 44100`,
`channels = 2`, `hasLossless = false`. -/
def initAnalyzeState : AnalyzeState :=
  { maxBitrate := 128, maxSampleRate := 44100, channels := 2, hasLossless := false }

/-- The lossless codec list checked by `analyzeInputFiles`. -/
def losslessCodecs : List Str :=
  ["flac".data, "alac".data, "wav".data, "pcm_s16le".data, "pcm_s24le".data]

/-- JS `audioStream.codec_name || "unknown"`. -/
def codecStr (a : AudioStream) : Str :=
  match a.codecName with
  | some c => if c.isEmpty then "unknown".data else c
  | none => "unknown".data

/-- JS `if (x) cur = Math.max(cur, x / 1000)` on an optional bit rate. -/
def bumpBitrate (cur : ℚ) (o : Option ℚ) : ℚ :=
  match o with
  | some b => if b = 0 then cur else max cur (b / 1000)
  | none => cur

/-- JS `if (x) cur = Math.max(cur, x)` on an optional natural field. -/
def bumpNat (cur : Nat) (o : Option Nat) : Nat :=
  match o with
  | some v => if v = 0 then cur else max cur v
  | none => cur

/-- The body of the per-stream branch of `analyzeInputFiles`. -/
def stepStream (st : AnalyzeState) (a : AudioStream) : AnalyzeState :=
  { maxBitrate := bumpBitrate st.maxBitrate a.bitRate,
    maxSampleRate := bumpNat st.maxSampleRate a.sampleRate,
    channels := bumpNat st.channels a.channels,
    hasLossless := st.hasLossless || losslessCodecs.contains (codecStr a) }

/-- One iteration of the `files.forEach` loop: probe errors and missing audio
streams contribute nothing. -/
def stepFile (st : AnalyzeState) (pr : ProbeResult) : AnalyzeState :=
  match pr with
  | none => st
  | some none => st
  | some (some a) => stepStream st a

/-- The record `analyzeInputFiles` resolves with. -/
structure AnalyzeResult where
  maxBitrate : ℚ
  maxSampleRate : Nat
  channels : Nat
  suggestedFormat : Str
deriving DecidableEq

/-- Embeds `AudioMergeService.analyzeInputFiles`: fold the probes, pick `flac` when
a lossless codec was seen and `mp3` otherwise, and for lossy output clamp the
bit rate into `[192, 320]`. -/
def analyzeInputFiles (files : List ProbeResult) : AnalyzeResult :=
  let st := files.foldl stepFile initAnalyzeState
  let suggestedFormat := if st.hasLossless then "flac".data else "mp3".data
  let maxBitrate :=
    if st.hasLossless then st.maxBitrate else min (max st.maxBitrate 192) 320
  { maxBitrate := maxBitrate, maxSampleRate := st.maxSampleRate,
    channels := st.channels, suggestedFormat := suggestedFormat }

/-- The bit rate (in kbps) a probe contributes, when it contributes one. -/
def probeBitrate (pr : ProbeResult) : Option ℚ :=
  match pr with
  | some (some a) =>
    match a.bitRate with
    | some b => if b = 0 then none else some (b / 1000)
    | none => none
  | _ => none

/-- The sample rate a probe contributes, when it contributes one. -/
def probeSampleRate (pr : ProbeResult) : Option Nat :=
  match pr with
  | some (some a) =>
    match a.sampleRate with
    | some v => if v = 0 then none else some v
    | none => none
  | _ => none

/-- Whether a probe reports a lossless codec. -/
def probeLossless (pr : ProbeResult) : Bool :=
  match pr with
  | some (some a) => losslessCodecs.contains (codecStr a)
  | _ => false

/-- All contributed input bit rates, in kbps. -/
def inputBitrates (files : List ProbeResult) : List ℚ :=
  files.filterMap probeBitrate

/-- All contributed input sample rates. -/
def inputSampleRates (files : List ProbeResult) : List Nat :=
  files.filterMap probeSampleRate

/-- Some input's codec lies in the lossless set. -/
def hasLosslessInput (files : List ProbeResult) : Prop :=
  ∃ pr ∈ files, probeLossless pr = true

/-- The `clamp(x, lo, hi)` function from the specification. -/
def clamp (lo hi x : ℚ) : ℚ := min (max x lo) hi

/-! ## AudioMergeService.mergeAudios — encoder settings -/

/-- Embeds `MergeOptions` from `src/types.ts` (the fields `mergeAudios` reads). -/
structure MergeOptions where
  bitrate : Option ℚ
  channels : Option Nat
  format : Option Str
  threads : Option Nat
deriving DecidableEq

/-- Embeds `AudioMergeService.getAudioCodec`: the codec map with `libmp3lame` as
default. -/
def getAudioCodec (format : Str) : Str :=
  if format = "mp3".data then "libmp3lame".data
  else if format = "aac".data then "aac".data
  else if format = "m4a".data then "aac".data
  else if format = "wav".data then "pcm_s16le".data
  else if format = "flac".data then "flac".data
  else if format = "ogg".data then "libvorbis".data
  else "libmp3lame".data

/-- The encoder parameters `mergeAudios` hands to ffmpeg. -/
structure MergeSettings where
  format : Str
  codec : Str
  frequency : Nat
  channels : Nat
  bitrateUsed : Option ℚ
deriving DecidableEq

/-- The settings computation of `AudioMergeService.mergeAudios`: option
destructuring with analyzer defaults, then the `flac` / `wav` / lossy branch
(only its ffmpeg parameters; the process run itself stays external).  Every
branch uses `analysis.maxSampleRate` as the output frequency, and the lossless
branch passes no bit rate. -/
def mergeSettings (files : List ProbeResult) (opts : MergeOptions) : MergeSettings :=
  let analysis := analyzeInputFiles files
  let bitrate := opts.bitrate.getD analysis.maxBitrate
  let channels := opts.channels.getD analysis.channels
  let format := opts.format.getD analysis.suggestedFormat
  if format = "flac".data then
    { format := format, codec := "flac".data, frequency := analysis.maxSampleRate,
      channels := channels, bitrateUsed := none }
  else if format = "wav".data then
    { format := format, codec := "pcm_s16le".data, frequency := analysis.maxSampleRate,
      channels := channels, bitrateUsed := none }
  else
    { format := format, codec := getAudioCodec format, frequency := analysis.maxSampleRate,
      channels := channels, bitrateUsed := some bitrate }

/-! ## Orchestration (`AudioBotService`)

The async job is embedded as a sequential function over an outcome oracle:
`downloadOk i` tells whether acquiring the `i`-th queued item succeeds
(a failed acquisition never yields a handle: `downloadFile`,
`YouTubeService.downloadAudio` and `MixedInputService.processItems` all clean
their own partial state before throwing), `mergeOk` whether ffmpeg succeeds
(on ffmpeg failure `mergeAudios` deletes its own partial output and rejects,
so no output handle is produced), and `uploadOk` whether the
`replyWithAudio`/reply step succeeds. -/

/-- External outcomes of one merge job. -/
structure MergeEnv where
  downloadOk : Nat → Bool
  mergeOk : Bool
  uploadOk : Bool

/-- State owned by `AudioBotService`: the session store plus the
`processingUsers` set. -/
structure BotState where
  store : Store
  processing : List Nat

/-- User-visible outcome of `processMerge`. -/
inductive Reply
  | alreadyInProgress
  | needTwoItems
  | mergeError
  | success
deriving DecidableEq

/-- Trace of one `processMerge` run: the reply, the final state, which input
handles were acquired and released, and whether an output handle was produced
and released. -/
structure MergeRun where
  reply : Reply
  state : BotState
  acquired : List Nat
  releasedInputs : List Nat
  outputProduced : Bool
  releasedOutput : Bool

/-- Embeds `AudioBotService.processMerge` (mixed-queue bot): reject when the user is
already processing, reject under two queued items; otherwise mark the user as
processing, download the items in queue order stopping at the first failure,
merge, upload, clear the queue only after a fully successful upload, and in
the `finally` block release every acquired download once, release the output
handle when one exists, and remove the user from the processing set. -/
def processMerge (s : BotState) (u : Nat) (now : Nat) (env : MergeEnv) : MergeRun :=
  if s.processing.contains u then
    { reply := .alreadyInProgress, state := s, acquired := [],
      releasedInputs := [], outputProduced := false, releasedOutput := false }
  else
    let st := getMixedQueueStatus s.store u
    if st.1 < 2 then
      { reply := .needTwoItems, state := s, acquired := [],
        releasedInputs := [], outputProduced := false, releasedOutput := false }
    else
      let processing1 := u :: s.processing
      let acquired := (List.range st.1).takeWhile env.downloadOk
      let allDownloaded := acquired.length == st.1
      let outputProduced := allDownloaded && env.mergeOk
      let succeeded := outputProduced && env.uploadOk
      let store' := if succeeded then clearMixedQueue s.store u now else s.store
      { reply := if succeeded then .success else .mergeError,
        state := { store := store', processing := processing1.erase u },
        acquired := acquired,
        releasedInputs := acquired,
        outputProduced := outputProduced,
        releasedOutput := outputProduced }

/-- User-visible outcome of the legacy `handleMergeCommand`. -/
inductive LegacyReply
  | busy
  | noFiles
  | needTwo
  | done
  | failed
deriving DecidableEq

/-- Whether the legacy `processAudioMerge` body runs to completion: every
download, the merge and the upload must succeed. -/
def legacyRunOk (env : MergeEnv) (n : Nat) : Bool :=
  ((List.range n).all env.downloadOk) && env.mergeOk && env.uploadOk

/-- The legacy `AudioBotService.handleMergeCommand`: precondition checks, then
`processAudioMerge` inside a `try`, and a `finally` block that removes the
user from the processing set and **unconditionally deletes the session** —
on failure as well as success. -/
def handleMergeCommand (s : BotState) (u : Nat) (env : MergeEnv) :
    LegacyReply × BotState :=
  if s.processing.contains u then (.busy, s)
  else
    match s.store u with
    | none => (.noFiles, s)
    | some sess =>
      if sess.audioFiles.length = 0 then (.noFiles, s)
      else if sess.audioFiles.length < 2 then (.needTwo, s)
      else
        let ok := legacyRunOk env sess.audioFiles.length
        let processing1 := (u :: s.processing).erase u
        ((if ok then .done else .failed),
         { store := deleteSession s.store u, processing := processing1 })

/-! ## Concrete example values used by witnesses and counterexamples -/

/-- A session holding two queued audio files and two queued mixed items. -/
def sessTwo : UserSession :=
  { audioFiles :=
      [{ fileId := "fa".data, fileName := "a.mp3".data, userId := 1, timestamp := 0 },
       { fileId := "fb".data, fileName := "b.mp3".data, userId := 1, timestamp := 0 }],
    mixedQueue :=
      [{ type := .audioFile, content := "fa".data, fileName := some "a.mp3".data, timestamp := 0 },
       { type := .audioFile, content := "fb".data, fileName := some "b.mp3".data, timestamp := 0 }],
    createdAt := 0, lastActivity := 0 }

/-- Bot state: user 1 has `sessTwo`, nobody is processing. -/
def stateTwo : BotState :=
  { store := setStore emptyStore 1 sessTwo, processing := [] }

/-- Bot state in which user 7 already has a job in flight. -/
def stateBusy : BotState :=
  { store := setStore emptyStore 7 sessTwo, processing := [7] }

/-- Outcomes: every download succeeds, the merge fails. -/
def envMergeFail : MergeEnv :=
  { downloadOk := fun _ => true, mergeOk := false, uploadOk := true }

/-- Outcomes: everything succeeds. -/
def envAllOk : MergeEnv :=
  { downloadOk := fun _ => true, mergeOk := true, uploadOk := true }

/-- A mixed item used to fill queues in witnesses. -/
def itemA : MixedQueueItem :=
  { type := .audioFile, content := "fx".data, fileName := none, timestamp := 0 }

/-- An audio queue item used in witnesses. -/
def audioItemA : AudioQueueItem :=
  { fileId := "fx".data, fileName := "x.mp3".data, userId := 3, timestamp := 0 }

/-- A session whose mixed and audio queues are both full (20 items). -/
def sessFull : UserSession :=
  { audioFiles := List.replicate 20 audioItemA,
    mixedQueue := List.replicate 20 itemA,
    createdAt := 0, lastActivity := 0 }

/-- Store in which user 3 has a full session. -/
def storeFull : Store := setStore emptyStore 3 sessFull

/-- A probe result for a lossy stream with the given bit rate (bps) and
sample rate. -/
def probeMp3 (br : ℚ) (sr : Nat) : ProbeResult :=
  some (some { codecName := some "mp3".data, bitRate := some br,
               sampleRate := some sr, channels := some 2 })

/-- A probe result for a flac stream with the given sample rate. -/
def probeFlac (sr : Nat) : ProbeResult :=
  some (some { codecName := some "flac".data, bitRate := none,
               sampleRate := some sr, channels := some 2 })

/-- Merge options as passed by `processMerge`: `{ threads: 2, bitrate: 192 }`
(no format override). -/
def callerOpts : MergeOptions :=
  { bitrate := some 192, channels := none, format := none, threads := some 2 }

/-! # Theorems -/

/-! ## Sanity checks of the path model -/

example : normalizePath "/var/lib/telegram-bot-api/../../etc/passwd".data
    = "/var/etc/passwd".data := by decide

example : pathJoin "/var/lib/telegram-bot-api".data "music/a.mp3".data
    = "/var/lib/telegram-bot-api/music/a.mp3".data := by decide

/-! ## C1 — path containment -/

/-- Claim C1 (code_bug evidence): the local-file resolver classifies the
traversal reference `../../../../etc/passwd` as local, resolves it to
`/etc/passwd` — a path outside the configured storage root — and proceeds to
read it (the source contains no containment check and no `AccessDenied`
failure; only prefix stripping and `path.normalize`).  The same holds for
`file:///etc/passwd`.  This contradicts the claim that any reference
normalizing outside the root fails with `AccessDenied` and is never read. -/
theorem path_escape_read_c1 :
    downloadFileRoute "../../../../etc/passwd".data = Route.local ∧
    handleLocalFilePath "../../../../etc/passwd".data = some "/etc/passwd".data ∧
    insideRoot "/etc/passwd".data = false ∧
    downloadFileRoute "file:///etc/passwd".data = Route.local ∧
    handleLocalFilePath "file:///etc/passwd".data = some "/etc/passwd".data := by
  decide

/-! ## C2 — queue capacity -/

/-- Claim C2: while a user's queue holds fewer than 20 items, enqueue appends
the (timestamped) item and returns true; once it holds 20 items, enqueue
returns false and leaves the queue exactly as it was, in its original order.
Stated for both `addMixedItem` and `addAudioFile`. -/
theorem enqueue_cap_c2 (st : Store) (u : Nat) (it : MixedQueueItem)
    (af : AudioQueueItem) (now : Nat) :
    ((mixedQueueOf st u).length < 20 →
      (addMixedItem st u it now).1 = true ∧
      mixedQueueOf (addMixedItem st u it now).2 u
        = mixedQueueOf st u ++ [{ it with timestamp := now }]) ∧
    ((mixedQueueOf st u).length = 20 →
      (addMixedItem st u it now).1 = false ∧
      mixedQueueOf (addMixedItem st u it now).2 u = mixedQueueOf st u) ∧
    ((audioQueueOf st u).length < 20 →
      (addAudioFile st u af now).1 = true ∧
      audioQueueOf (addAudioFile st u af now).2 u
        = audioQueueOf st u ++ [{ af with timestamp := now }]) ∧
    ((audioQueueOf st u).length = 20 →
      (addAudioFile st u af now).1 = false ∧
      audioQueueOf (addAudioFile st u af now).2 u = audioQueueOf st u) := by
  cases h : st u with
  | none =>
    refine ⟨fun _ => ?_, fun h20 => ?_, fun _ => ?_, fun h20 => ?_⟩
    · simp [addMixedItem, getSession, h, createSession, freshSession,
        updateSession, setStore, mixedQueueOf]
    · simp [mixedQueueOf, h] at h20
    · simp [addAudioFile, getSession, h, createSession, freshSession,
        updateSession, setStore, audioQueueOf]
    · simp [audioQueueOf, h] at h20
  | some s =>
    refine ⟨fun hlt => ?_, fun h20 => ?_, fun hlt => ?_, fun h20 => ?_⟩
    · have hnot : ¬ 20 ≤ s.mixedQueue.length := by
        simp [mixedQueueOf, h] at hlt; omega
      simp [addMixedItem, getSession, h, hnot, updateSession, setStore, mixedQueueOf]
    · have hge : 20 ≤ s.mixedQueue.length := by
        simp [mixedQueueOf, h] at h20; omega
      simp [addMixedItem, getSession, h, hge, mixedQueueOf]
    · have hnot : ¬ 20 ≤ s.audioFiles.length := by
        simp [audioQueueOf, h] at hlt; omega
      simp [addAudioFile, getSession, h, hnot, updateSession, setStore, audioQueueOf]
    · have hge : 20 ≤ s.audioFiles.length := by
        simp [audioQueueOf, h] at h20; omega
      simp [addAudioFile, getSession, h, hge, audioQueueOf]

/-- Claim C2 witness: at a full 20-item queue the enqueue returns false and
the queue is untouched; below the cap it appends. -/
theorem enqueue_cap_c2_witness :
    ((mixedQueueOf storeFull 3).length = 20 ∧
      (addMixedItem storeFull 3 itemA 5).1 = false ∧
      mixedQueueOf (addMixedItem storeFull 3 itemA 5).2 3 = mixedQueueOf storeFull 3) ∧
    ((mixedQueueOf emptyStore 3).length < 20 ∧
      (addMixedItem emptyStore 3 itemA 5).1 = true ∧
      mixedQueueOf (addMixedItem emptyStore 3 itemA 5).2 3
        = mixedQueueOf emptyStore 3 ++ [{ itemA with timestamp := 5 }]) := by
  refine ⟨⟨by decide, ?_, ?_⟩, ⟨by decide, ?_, ?_⟩⟩
  · exact ((enqueue_cap_c2 storeFull 3 itemA audioItemA 5).2.1 (by decide)).1
  · exact ((enqueue_cap_c2 storeFull 3 itemA audioItemA 5).2.1 (by decide)).2
  · exact ((enqueue_cap_c2 emptyStore 3 itemA audioItemA 5).1 (by decide)).1
  · exact ((enqueue_cap_c2 emptyStore 3 itemA audioItemA 5).1 (by decide)).2

/-! ## Shared lemmas about the orchestration -/

/-- Clearing the mixed queue always leaves that user's stored queue empty. -/
theorem mixedQueueOf_clear (st : Store) (u now : Nat) :
    mixedQueueOf (clearMixedQueue st u now) u = [] := by
  cases h : st u with
  | none => simp [clearMixedQueue, getSession, h, mixedQueueOf]
  | some s => simp [clearMixedQueue, getSession, h, updateSession, setStore, mixedQueueOf]

/-! ## C3 — failure leaves the queue intact -/

/-- Claim C3 counterexample: in the legacy `handleMergeCommand`, a merge job
for user 1 with two queued files whose merge step fails replies with an error
AND deletes the session in the `finally` block, so the queued items are gone
and cannot be retried — contradicting the claim that every failed merge job
leaves the queue unchanged. -/
theorem legacy_delete_on_failure_c3 :
    (handleMergeCommand stateTwo 1 envMergeFail).1 = LegacyReply.failed ∧
    audioQueueOf stateTwo.store 1 = sessTwo.audioFiles ∧
    sessTwo.audioFiles.length = 2 ∧
    (handleMergeCommand stateTwo 1 envMergeFail).2.store 1 = none ∧
    audioQueueOf (handleMergeCommand stateTwo 1 envMergeFail).2.store 1 = [] := by
  decide

/-- Claim C3 (amended): in the mixed-queue path (`processMerge`), a job that
fails at any stage past entry leaves the user's stored queue exactly as it
was, and only a fully successful merge clears it; in the legacy audio path
(`handleMergeCommand`), the session is deleted unconditionally after every
attempted merge, on failure as well as success. -/
theorem queue_on_failure_c3 (s : BotState) (u now : Nat) (env : MergeEnv)
    (hnp : s.processing.contains u = false)
    (h2 : 2 ≤ (getMixedQueueStatus s.store u).1) :
    ((processMerge s u now env).reply ≠ Reply.success →
      mixedQueueOf (processMerge s u now env).state.store u = mixedQueueOf s.store u) ∧
    ((processMerge s u now env).reply = Reply.success →
      mixedQueueOf (processMerge s u now env).state.store u = []) ∧
    (∀ sess, s.store u = some sess → 2 ≤ sess.audioFiles.length →
      (handleMergeCommand s u env).2.store u = none) := by
  have hmem : u ∉ s.processing := by simpa using hnp
  have h2' : ¬ ((getMixedQueueStatus s.store u).1 < 2) := by omega
  have hlegacy : ∀ sess, s.store u = some sess → 2 ≤ sess.audioFiles.length →
      (handleMergeCommand s u env).2.store u = none := by
    intro sess hsess hlen
    have h0 : ¬ (sess.audioFiles.length = 0) := by omega
    have h1 : ¬ (sess.audioFiles.length < 2) := by omega
    simp [handleMergeCommand, hmem, hsess, h0, h1, deleteSession]
  by_cases hs : ((List.takeWhile env.downloadOk
        (List.range (getMixedQueueStatus s.store u).1)).length
          = (getMixedQueueStatus s.store u).1 ∧ env.mergeOk = true) ∧ env.uploadOk = true
  · refine ⟨fun hfail => ?_, fun _ => ?_, hlegacy⟩
    · exfalso
      apply hfail
      simp [processMerge, hmem, h2', hs]
    · simp [processMerge, hmem, h2', hs, mixedQueueOf_clear]
  · refine ⟨fun _ => ?_, fun hsucc => ?_, hlegacy⟩
    · simp [processMerge, hmem, h2', hs]
    · exfalso
      simp [processMerge, hmem, h2', hs] at hsucc

/-- Claim C3 witness: user 1 with two queued items, merge step fails — the
mixed queue survives untouched; with everything succeeding it is cleared; and
the legacy path deletes the session even on that failing run. -/
theorem queue_on_failure_c3_witness :
    stateTwo.processing.contains 1 = false ∧
    2 ≤ (getMixedQueueStatus stateTwo.store 1).1 ∧
    ((processMerge stateTwo 1 9 envMergeFail).reply ≠ Reply.success →
      mixedQueueOf (processMerge stateTwo 1 9 envMergeFail).state.store 1
        = mixedQueueOf stateTwo.store 1) ∧
    (stateTwo.store 1 = some sessTwo → 2 ≤ sessTwo.audioFiles.length →
      (handleMergeCommand stateTwo 1 envMergeFail).2.store 1 = none) := by
  refine ⟨by decide, by decide, ?_, ?_⟩
  · exact (queue_on_failure_c3 stateTwo 1 9 envMergeFail (by decide) (by decide)).1
  · exact fun h1 h2 =>
      (queue_on_failure_c3 stateTwo 1 9 envMergeFail (by decide) (by decide)).2.2
        sessTwo h1 h2

/-! ## C5 — exactly-once release -/

/-- Claim C5: for a merge job that actually enters the pipeline, the set of
released input handles is exactly the set of acquired ones — each acquired
handle is released exactly once (the acquired indices are duplicate-free) —
and the output handle is released exactly when one was produced, on every
outcome of the downloads, the merge and the upload. -/
theorem release_once_c5 (s : BotState) (u now : Nat) (env : MergeEnv)
    (hnp : s.processing.contains u = false)
    (h2 : 2 ≤ (getMixedQueueStatus s.store u).1) :
    (processMerge s u now env).releasedInputs = (processMerge s u now env).acquired ∧
    (processMerge s u now env).acquired.Nodup ∧
    (∀ h ∈ (processMerge s u now env).acquired,
      (processMerge s u now env).releasedInputs.count h = 1) ∧
    (processMerge s u now env).releasedOutput = (processMerge s u now env).outputProduced := by
  have hmem : u ∉ s.processing := by simpa using hnp
  have h2' : ¬ ((getMixedQueueStatus s.store u).1 < 2) := by omega
  have hrel : (processMerge s u now env).releasedInputs
      = (processMerge s u now env).acquired := by
    simp [processMerge, hmem, h2']
  have hacq : (processMerge s u now env).acquired
      = (List.range (getMixedQueueStatus s.store u).1).takeWhile env.downloadOk := by
    simp [processMerge, hmem, h2']
  have hnd : (processMerge s u now env).acquired.Nodup := by
    rw [hacq]
    exact ((List.takeWhile_prefix env.downloadOk).sublist).nodup
      (List.nodup_range (getMixedQueueStatus s.store u).1)
  refine ⟨hrel, hnd, fun h hin => ?_, ?_⟩
  · rw [hrel]
    exact List.count_eq_one_of_mem hnd hin
  · simp [processMerge, hmem, h2']

/-- Claim C5 witness: two queued items, all stages succeed — both inputs are
released once each and the produced output handle is released. -/
theorem release_once_c5_witness :
    stateTwo.processing.contains 1 = false ∧
    2 ≤ (getMixedQueueStatus stateTwo.store 1).1 ∧
    (∀ h ∈ (processMerge stateTwo 1 9 envAllOk).acquired,
      (processMerge stateTwo 1 9 envAllOk).releasedInputs.count h = 1) ∧
    (processMerge stateTwo 1 9 envAllOk).releasedOutput
      = (processMerge stateTwo 1 9 envAllOk).outputProduced := by
  refine ⟨by decide, by decide, ?_, ?_⟩
  · exact (release_once_c5 stateTwo 1 9 envAllOk (by decide) (by decide)).2.2.1
  · exact (release_once_c5 stateTwo 1 9 envAllOk (by decide) (by decide)).2.2.2

/-! ## C9 — per-user mutual exclusion -/

/-- Claim C9: a merge request for a user already marked as processing returns
`alreadyInProgress` immediately and changes nothing at all (no job, no
acquisitions, no releases, state untouched); for a user not marked as
processing, the processing set after the call is exactly what it was before —
the per-user exclusion mark is removed on every exit path. -/
theorem exclusion_c9 (s : BotState) (u now : Nat) (env : MergeEnv) :
    (s.processing.contains u = true →
      processMerge s u now env =
        { reply := .alreadyInProgress, state := s, acquired := [],
          releasedInputs := [], outputProduced := false, releasedOutput := false }) ∧
    (s.processing.contains u = false →
      (processMerge s u now env).state.processing = s.processing) := by
  constructor
  · intro h
    have hin : u ∈ s.processing := by simpa using h
    simp [processMerge, hin]
  · intro h
    have hout : u ∉ s.processing := by simpa using h
    by_cases h2 : (getMixedQueueStatus s.store u).1 < 2
    · simp [processMerge, hout, h2]
    · simp [processMerge, hout, h2, List.erase_cons_head]

/-- Claim C9 witness: user 7 is busy, so a second request is rejected with
state unchanged; user 1 is free, and after a full run the processing set is
back to what it was. -/
theorem exclusion_c9_witness :
    stateBusy.processing.contains 7 = true ∧
    processMerge stateBusy 7 9 envAllOk =
      { reply := .alreadyInProgress, state := stateBusy, acquired := [],
        releasedInputs := [], outputProduced := false, releasedOutput := false } ∧
    stateTwo.processing.contains 1 = false ∧
    (processMerge stateTwo 1 9 envAllOk).state.processing = stateTwo.processing := by
  refine ⟨by decide, ?_, by decide, ?_⟩
  · exact (exclusion_c9 stateBusy 7 9 envAllOk).1 (by decide)
  · exact (exclusion_c9 stateTwo 1 9 envAllOk).2 (by decide)

/-! ## C10 — status query on absent or empty sessions -/

/-- Claim C10: the status queries are total pure reads (the method bodies
never write to the session map, so they embed as functions of the store):
for a user with no session both return count 0 with an empty item list, and
the same holds for an existing session with an empty queue.  No session is
created: the store passed in is left as it is. -/
theorem status_pure_c10 (st : Store) (u : Nat) :
    (st u = none →
      getMixedQueueStatus st u = (0, []) ∧ getQueueStatus st u = (0, [])) ∧
    (∀ s, st u = some s → s.mixedQueue = [] →
      getMixedQueueStatus st u = (0, [])) ∧
    (∀ s, st u = some s → s.audioFiles = [] →
      getQueueStatus st u = (0, [])) := by
  refine ⟨fun h => ?_, fun s h hq => ?_, fun s h hq => ?_⟩
  · simp [getMixedQueueStatus, getQueueStatus, getSession, h]
  · simp [getMixedQueueStatus, getSession, h, hq]
  · simp [getQueueStatus, getSession, h, hq]

/-- Claim C10 witness: an empty store — the status calls answer `(0, [])`. -/
theorem status_pure_c10_witness :
    emptyStore 5 = none ∧
    getMixedQueueStatus emptyStore 5 = (0, []) ∧
    getQueueStatus emptyStore 5 = (0, []) := by
  refine ⟨by decide, ?_, ?_⟩
  · exact ((status_pure_c10 emptyStore 5).1 (by decide)).1
  · exact ((status_pure_c10 emptyStore 5).1 (by decide)).2

/-! ## C4 — snapshot write and load -/

/-- Claim C4 counterexample: `saveSessions` does not use write-temp-then-
rename semantics — its operation trace is a single direct write to the final
sessions file (shown here at the default `./user-sessions.json` path with
some content), never a write to a temporary path followed by a rename. -/
theorem snapshot_not_atomic_c4 :
    ¬ atomicReplace "./user-sessions.json".data
      (saveSessionsOps "./user-sessions.json".data "{}".data) := by
  rintro ⟨tmp, c, hne, heq⟩
  have hlen := congrArg List.length heq
  simp [saveSessionsOps] at hlen

/-- Claim C4 (amended): the snapshot is rewritten with a single direct write
to the sessions file — not write-temp-then-rename, so a kill mid-write can
leave a truncated file — while on startup a missing snapshot file and a
corrupt (unparsable) snapshot file both yield the empty store rather than an
error. -/
theorem snapshot_direct_write_c4 (f c : Str) :
    (∀ op ∈ saveSessionsOps f c, ∀ src dst, op ≠ FsOp.rename src dst) ∧
    saveSessionsOps f c = [FsOp.write f c] ∧
    loadSessions none = emptyStore ∧
    loadSessions (some none) = emptyStore := by
  refine ⟨?_, rfl, rfl, rfl⟩
  intro op hop src dst
  simp [saveSessionsOps] at hop
  simp [hop]

/-- Claim C4 witness: the amended statement at the default snapshot path. -/
theorem snapshot_direct_write_c4_witness :
    (∀ op ∈ saveSessionsOps "./user-sessions.json".data "{}".data,
      ∀ src dst, op ≠ FsOp.rename src dst) ∧
    loadSessions none = emptyStore ∧
    loadSessions (some none) = emptyStore :=
  ⟨(snapshot_direct_write_c4 "./user-sessions.json".data "{}".data).1,
   (snapshot_direct_write_c4 "./user-sessions.json".data "{}".data).2.2.1,
   (snapshot_direct_write_c4 "./user-sessions.json".data "{}".data).2.2.2⟩

/-! ## C6 — local/remote classification -/

/-- Claim C6 counterexample: the implementation classifies by substring
containment and a bare `http` prefix test, not by host matching or URL
well-formedness.  `http://evil.com/x?u=localhost:8081` is a well-formed http
URL whose host is `evil.com` — remote under the specification's rule — yet
the code routes it locally because the endpoint appears as a substring of the
query.  Conversely `httpgarbage` is not a well-formed http(s) URL — local
under the specification's rule — yet the code routes it remotely because it
starts with `http`. -/
theorem substring_host_c6 :
    downloadFileRoute "http://evil.com/x?u=localhost:8081".data = Route.local ∧
    specIsLocalRef "http://evil.com/x?u=localhost:8081".data = false ∧
    downloadFileRoute "httpgarbage".data = Route.remote ∧
    specIsLocalRef "httpgarbage".data = true := by
  decide

/-- Claim C6 (amended): a reference is classified local exactly when it
starts with `file://`, or contains one of the three local-endpoint strings
`127.0.0.1:8081` / `localhost:8081` / `telegram-bot-api:8081` anywhere as a
substring, or does not start with `http`; otherwise it is classified remote.
In particular every absolute filesystem path is classified local. -/
theorem classify_c6 (url : Str) :
    (downloadFileRoute url = Route.local ↔
      ("file://".data.isPrefixOf url = true ∨
       strIncludes "127.0.0.1:8081".data url = true ∨
       strIncludes "localhost:8081".data url = true ∨
       strIncludes "telegram-bot-api:8081".data url = true ∨
       "http".data.isPrefixOf url = false)) ∧
    (url.head? = some '/' → downloadFileRoute url = Route.local) := by
  constructor
  · have hif : downloadFileRoute url = Route.local
        ↔ ("file://".data.isPrefixOf url || isLocalPath url) = true := by
      unfold downloadFileRoute
      split
      · rename_i hcond
        exact iff_of_true rfl hcond
      · rename_i hcond
        exact iff_of_false (by decide) hcond
    rw [hif]
    simp only [isLocalPath, Bool.or_eq_true, Bool.not_eq_true']
    tauto
  · intro hhead
    cases url with
    | nil => simp at hhead
    | cons c cs =>
      have hc : c = '/' := by simpa using hhead
      subst hc
      have : "http".data.isPrefixOf ('/' :: cs) = false := by
        simp [List.isPrefixOf]
      simp [downloadFileRoute, isLocalPath, this]

/-- Claim C6 witness: the absolute path `/music/a.mp3` is classified local,
and the amended characterization holds at it. -/
theorem classify_c6_witness :
    "/music/a.mp3".data.head? = some '/' ∧
    downloadFileRoute "/music/a.mp3".data = Route.local := by
  refine ⟨by decide, ?_⟩
  exact (classify_c6 "/music/a.mp3".data).2 (by decide)

/-! ## Lemmas about the analyzer fold -/

/-- Shifting the seed of a `max`-fold. -/
theorem foldl_max_shift {α : Type} [LinearOrder α] (l : List α) :
    ∀ a b : α, List.foldl max (max a b) l = max (List.foldl max a l) b := by
  induction l with
  | nil => intro a b; rfl
  | cons x xs ih =>
    intro a b
    simp only [List.foldl_cons]
    rw [sup_right_comm a b x]
    exact ih (max a x) b

/-- Bit-rate component of one analyzer step. -/
theorem stepFile_maxBitrate (st : AnalyzeState) (pr : ProbeResult) :
    (stepFile st pr).maxBitrate
      = (probeBitrate pr).elim st.maxBitrate (max st.maxBitrate) := by
  cases pr with
  | none => rfl
  | some o =>
    cases o with
    | none => rfl
    | some a =>
      cases hbr : a.bitRate with
      | none => simp [stepFile, stepStream, bumpBitrate, probeBitrate, hbr]
      | some b =>
        by_cases hb : b = 0
        · simp [stepFile, stepStream, bumpBitrate, probeBitrate, hbr, hb]
        · simp [stepFile, stepStream, bumpBitrate, probeBitrate, hbr, hb]

/-- Sample-rate component of one analyzer step. -/
theorem stepFile_maxSampleRate (st : AnalyzeState) (pr : ProbeResult) :
    (stepFile st pr).maxSampleRate
      = (probeSampleRate pr).elim st.maxSampleRate (max st.maxSampleRate) := by
  cases pr with
  | none => rfl
  | some o =>
    cases o with
    | none => rfl
    | some a =>
      cases hsr : a.sampleRate with
      | none => simp [stepFile, stepStream, bumpNat, probeSampleRate, hsr]
      | some v =>
        by_cases hv : v = 0
        · simp [stepFile, stepStream, bumpNat, probeSampleRate, hsr, hv]
        · simp [stepFile, stepStream, bumpNat, probeSampleRate, hsr, hv]

/-- Lossless flag of one analyzer step. -/
theorem stepFile_hasLossless (st : AnalyzeState) (pr : ProbeResult) :
    (stepFile st pr).hasLossless = (st.hasLossless || probeLossless pr) := by
  cases pr with
  | none => simp [stepFile, probeLossless]
  | some o =>
    cases o with
    | none => simp [stepFile, probeLossless]
    | some a => rfl

/-- The analyzer's running maximum bit rate is a `max`-fold over the
contributed input bit rates. -/
theorem foldl_bitrate (files : List ProbeResult) :
    ∀ st : AnalyzeState,
    (files.foldl stepFile st).maxBitrate
      = List.foldl max st.maxBitrate (inputBitrates files) := by
  induction files with
  | nil => intro st; rfl
  | cons pr rest ih =>
    intro st
    simp only [List.foldl_cons]
    rw [ih (stepFile st pr)]
    cases hpb : probeBitrate pr with
    | none =>
      simp [inputBitrates, List.filterMap_cons, hpb, stepFile_maxBitrate]
    | some v =>
      simp [inputBitrates, List.filterMap_cons, hpb, stepFile_maxBitrate]

/-- The analyzer's running maximum sample rate is a `max`-fold over the
contributed input sample rates. -/
theorem foldl_sampleRate (files : List ProbeResult) :
    ∀ st : AnalyzeState,
    (files.foldl stepFile st).maxSampleRate
      = List.foldl max st.maxSampleRate (inputSampleRates files) := by
  induction files with
  | nil => intro st; rfl
  | cons pr rest ih =>
    intro st
    simp only [List.foldl_cons]
    rw [ih (stepFile st pr)]
    cases hps : probeSampleRate pr with
    | none =>
      simp [inputSampleRates, List.filterMap_cons, hps, stepFile_maxSampleRate]
    | some v =>
      simp [inputSampleRates, List.filterMap_cons, hps, stepFile_maxSampleRate]

/-- The analyzer's lossless flag is the disjunction of the probes' lossless
flags. -/
theorem foldl_lossless (files : List ProbeResult) :
    ∀ st : AnalyzeState,
    (files.foldl stepFile st).hasLossless
      = (st.hasLossless || files.any probeLossless) := by
  induction files with
  | nil => intro st; simp
  | cons pr rest ih =>
    intro st
    simp only [List.foldl_cons]
    rw [ih (stepFile st pr), stepFile_hasLossless]
    simp [Bool.or_assoc]

/-- The bit-rate bump commutes with itself. -/
theorem bumpBitrate_comm (x : ℚ) (o₁ o₂ : Option ℚ) :
    bumpBitrate (bumpBitrate x o₁) o₂ = bumpBitrate (bumpBitrate x o₂) o₁ := by
  cases o₁ with
  | none => cases o₂ <;> simp [bumpBitrate]
  | some b₁ =>
    cases o₂ with
    | none => simp [bumpBitrate]
    | some b₂ =>
      by_cases h₁ : b₁ = 0 <;> by_cases h₂ : b₂ = 0 <;>
        simp [bumpBitrate, h₁, h₂, sup_right_comm]

/-- The natural-field bump commutes with itself. -/
theorem bumpNat_comm (x : Nat) (o₁ o₂ : Option Nat) :
    bumpNat (bumpNat x o₁) o₂ = bumpNat (bumpNat x o₂) o₁ := by
  cases o₁ with
  | none => cases o₂ <;> simp [bumpNat]
  | some v₁ =>
    cases o₂ with
    | none => simp [bumpNat]
    | some v₂ =>
      by_cases h₁ : v₁ = 0 <;> by_cases h₂ : v₂ = 0 <;>
        simp [bumpNat, h₁, h₂, sup_right_comm]

/-- Two analyzer stream steps commute. -/
theorem stepStream_comm (s : AnalyzeState) (a b : AudioStream) :
    stepStream (stepStream s a) b = stepStream (stepStream s b) a := by
  simp only [stepStream]
  congr 1
  · exact bumpBitrate_comm s.maxBitrate a.bitRate b.bitRate
  · exact bumpNat_comm s.maxSampleRate a.sampleRate b.sampleRate
  · exact bumpNat_comm s.channels a.channels b.channels
  · cases s.hasLossless <;> simp [Bool.or_comm]

/-- Two analyzer file steps commute. -/
theorem stepFile_comm (s : AnalyzeState) (p q : ProbeResult) :
    stepFile (stepFile s p) q = stepFile (stepFile s q) p := by
  cases p with
  | none => rfl
  | some op =>
    cases op with
    | none => rfl
    | some a =>
      cases q with
      | none => rfl
      | some oq =>
        cases oq with
        | none => rfl
        | some b => exact stepStream_comm s a b

/-- The analyzer fold is invariant under permutation of the probes. -/
theorem foldl_stepFile_perm {l₁ l₂ : List ProbeResult} (h : l₁.Perm l₂) :
    ∀ st : AnalyzeState, l₁.foldl stepFile st = l₂.foldl stepFile st := by
  induction h with
  | nil => intro st; rfl
  | cons x _ ih =>
    intro st
    simp only [List.foldl_cons]
    exact ih (stepFile st x)
  | swap x y l =>
    intro st
    simp only [List.foldl_cons]
    rw [stepFile_comm]
  | trans _ _ ih₁ ih₂ =>
    intro st
    rw [ih₁ st, ih₂ st]

/-! ## C7 — lossy output bit rate -/

/-- Claim C7: when no input has a lossless codec, the analyzer's output bit
rate equals `clamp(max(input bitrates, 192), 192, 320)` — the maximum of the
contributed input bit rates (kbps) and 192, clamped to at most 320.  (The
implementation starts its running maximum at 128, which the 192 floor
absorbs.) -/
theorem bitrate_clamp_c7 (files : List ProbeResult)
    (hl : ∀ pr ∈ files, probeLossless pr = false) :
    (analyzeInputFiles files).maxBitrate
      = clamp 192 320 (List.foldl max 192 (inputBitrates files)) := by
  have hany : files.any probeLossless = false := by
    rw [List.any_eq_false]
    intro pr hpr
    simp [hl pr hpr]
  have hlo : (files.foldl stepFile initAnalyzeState).hasLossless = false := by
    rw [foldl_lossless files initAnalyzeState, hany]
    rfl
  have hshift : max (List.foldl max (128 : ℚ) (inputBitrates files)) 192
      = List.foldl max (192 : ℚ) (inputBitrates files) := by
    rw [← foldl_max_shift (inputBitrates files) 128 192,
      max_eq_right (by norm_num : (128 : ℚ) ≤ 192)]
  simp only [analyzeInputFiles, clamp, hlo, Bool.false_eq_true, if_false]
  rw [foldl_bitrate files initAnalyzeState]
  show min (max (List.foldl max 128 (inputBitrates files)) 192) 320
    = min (max (List.foldl max 192 (inputBitrates files)) 192) 320
  rw [← hshift, max_assoc, max_self]

/-- Claim C7 witness: concrete lossy inputs — bit rates [128, 256] kbps give
256, [400] alone is clamped to 320, [96] alone is raised to 192. -/
theorem bitrate_clamp_c7_witness :
    (∀ pr ∈ [probeMp3 128000 44100, probeMp3 256000 44100],
      probeLossless pr = false) ∧
    (analyzeInputFiles [probeMp3 128000 44100, probeMp3 256000 44100]).maxBitrate
      = clamp 192 320
        (List.foldl max 192 (inputBitrates [probeMp3 128000 44100, probeMp3 256000 44100])) ∧
    (analyzeInputFiles [probeMp3 128000 44100, probeMp3 256000 44100]).maxBitrate = 256 ∧
    (analyzeInputFiles [probeMp3 400000 48000]).maxBitrate = 320 ∧
    (analyzeInputFiles [probeMp3 96000 44100]).maxBitrate = 192 := by
  have h1 : ∀ pr ∈ [probeMp3 128000 44100, probeMp3 256000 44100],
      probeLossless pr = false := by decide
  have h2 : ∀ pr ∈ [probeMp3 400000 48000], probeLossless pr = false := by decide
  have h3 : ∀ pr ∈ [probeMp3 96000 44100], probeLossless pr = false := by decide
  refine ⟨h1, bitrate_clamp_c7 _ h1, ?_, ?_, ?_⟩
  · rw [bitrate_clamp_c7 _ h1]
    norm_num [clamp, inputBitrates, probeBitrate, probeMp3, List.filterMap, List.foldl]
  · rw [bitrate_clamp_c7 _ h2]
    norm_num [clamp, inputBitrates, probeBitrate, probeMp3, List.filterMap, List.foldl]
  · rw [bitrate_clamp_c7 _ h3]
    norm_num [clamp, inputBitrates, probeBitrate, probeMp3, List.filterMap, List.foldl]

/-! ## C8 — lossless detection, flac output, order independence -/

/-- Claim C8: the analyzer reports a lossless profile exactly when some
input's codec lies in the lossless set; in that case (with no caller format
override, as at both call sites) the merge encodes with container and codec
`flac` at the maximum of the inputs' sample rates (floored at 44100); and the
whole analysis result is independent of the order in which inputs are
probed. -/
theorem lossless_profile_c8 (files : List ProbeResult) (opts : MergeOptions)
    (hfmt : opts.format = none) :
    ((analyzeInputFiles files).suggestedFormat = "flac".data ↔ hasLosslessInput files) ∧
    (hasLosslessInput files →
      (mergeSettings files opts).format = "flac".data ∧
      (mergeSettings files opts).codec = "flac".data ∧
      (mergeSettings files opts).frequency
        = List.foldl max 44100 (inputSampleRates files)) ∧
    (∀ files', files.Perm files' →
      analyzeInputFiles files = analyzeInputFiles files') := by
  have hfmtEq : (analyzeInputFiles files).suggestedFormat
      = if files.any probeLossless then "flac".data else "mp3".data := by
    simp only [analyzeInputFiles]
    rw [foldl_lossless files initAnalyzeState]
    rfl
  have hiff : (analyzeInputFiles files).suggestedFormat = "flac".data
      ↔ hasLosslessInput files := by
    rw [hfmtEq]
    by_cases hA : files.any probeLossless = true
    · rw [hA]
      refine iff_of_true (by simp) ?_
      obtain ⟨pr, hpr, hp⟩ := List.any_eq_true.mp hA
      exact ⟨pr, hpr, hp⟩
    · have hA' : files.any probeLossless = false := by
        revert hA
        cases files.any probeLossless <;> simp
      rw [hA']
      refine iff_of_false (by simp) ?_
      rintro ⟨pr, hpr, hp⟩
      have := List.any_eq_false.mp hA' pr hpr
      simp [hp] at this
  refine ⟨hiff, fun hL => ?_, fun files' hperm => ?_⟩
  · have hflac : (analyzeInputFiles files).suggestedFormat = "flac".data :=
      hiff.mpr hL
    have hfreq : (analyzeInputFiles files).maxSampleRate
        = List.foldl max 44100 (inputSampleRates files) := by
      simp only [analyzeInputFiles]
      rw [foldl_sampleRate files initAnalyzeState]
      rfl
    refine ⟨?_, ?_, ?_⟩ <;> simp [mergeSettings, hfmt, hflac, hfreq]
  · simp only [analyzeInputFiles]
    rw [foldl_stepFile_perm hperm initAnalyzeState]

/-- Claim C8 witness: one flac input (48000 Hz) plus one mp3 input
(44100 Hz), merged with the caller's actual options (no format override) —
the profile is lossless, the container and codec are flac, and the output
sample rate is 48000, the higher of the two. -/
theorem lossless_profile_c8_witness :
    callerOpts.format = none ∧
    hasLosslessInput [probeFlac 48000, probeMp3 128000 44100] ∧
    (mergeSettings [probeFlac 48000, probeMp3 128000 44100] callerOpts).format
      = "flac".data ∧
    (mergeSettings [probeFlac 48000, probeMp3 128000 44100] callerOpts).codec
      = "flac".data ∧
    (mergeSettings [probeFlac 48000, probeMp3 128000 44100] callerOpts).frequency
      = List.foldl max 44100 (inputSampleRates [probeFlac 48000, probeMp3 128000 44100]) ∧
    (mergeSettings [probeFlac 48000, probeMp3 128000 44100] callerOpts).frequency
      = 48000 := by
  have hL : hasLosslessInput [probeFlac 48000, probeMp3 128000 44100] :=
    ⟨probeFlac 48000, by simp, by decide⟩
  have main :=
    lossless_profile_c8 [probeFlac 48000, probeMp3 128000 44100] callerOpts rfl
  refine ⟨rfl, hL, (main.2.1 hL).1, (main.2.1 hL).2.1, (main.2.1 hL).2.2, ?_⟩
  rw [(main.2.1 hL).2.2]
  decide
